import Mathlib

/-!
Verification development for the mystream media-catalog player.

The definitions below are shallow embeddings of the link-classification
helpers in `src/types.ts` and of the player state machines in
`src/components/VideoPlayer.tsx` and `src/components/AudioPlayer.tsx`.
URLs are modelled as `String` / `List Char`; JS numbers that the code only
stores, compares with 0 and scales are modelled as `ℚ`.
-/

/-! ## JS string primitives -/

/-- Predicate `hasPfx s p` : `p` is a leading run of `s` (char-by-char comparison,
as a JS regex/`startsWith` anchored match does). -/
def hasPfx : List Char → List Char → Bool
  | _, [] => true
  | [], _ :: _ => false
  | a :: as, b :: bs => a == b && hasPfx as bs

/-- JS `String.prototype.includes` on char lists: `pat` occurs contiguously in `s`. -/
def containsSub : List Char → List Char → Bool
  | [], pat => hasPfx [] pat
  | c :: cs, pat => hasPfx (c :: cs) pat || containsSub cs pat

/-- JS `url.includes(pat)` (case-sensitive). -/
def strIncludes (s pat : String) : Bool := containsSub s.data pat.data

/-- Case-insensitive containment of an ASCII pattern, modelling a JS
`/pat/i.test(s)` where `pat` is a lowercase ASCII literal: the subject is
ASCII-lowercased (`Char.toLower` only folds `A`-`Z`, matching the JS `i`-flag
canonicalisation for ASCII-only patterns). -/
def strIncludesCI (s pat : String) : Bool :=
  containsSub (s.data.map Char.toLower) pat.data

/-- First-occurrence replacement, the semantics of JS
`s.replace(pat, rep)` with a plain-string pattern. -/
def replFirst (pat rep : List Char) : List Char → List Char
  | [] => if hasPfx [] pat then rep else []
  | c :: cs =>
    if hasPfx (c :: cs) pat then rep ++ (c :: cs).drop pat.length
    else c :: replFirst pat rep cs

def strReplFirst (s pat rep : String) : String :=
  String.mk (replFirst pat.data rep.data s.data)

/-! ## Link classifier (src/types.ts) -/

/-- Embedding of `isYouTubeLink` (types.ts 27-29): `/(?:youtube\.com|youtu\.be)/i.test(url)`. -/
def isYouTubeLink (url : String) : Bool :=
  strIncludesCI url "youtube.com" || strIncludesCI url "youtu.be"

/-- Embedding of `isMegaLink` (types.ts 69-71): `/mega\.nz/i.test(url)`. -/
def isMegaLink (url : String) : Bool := strIncludesCI url "mega.nz"

inductive LinkType where
  | youtube
  | mega
  | direct
deriving DecidableEq, Repr

/-- Embedding of `getLinkType` (types.ts 85-89). -/
def getLinkType (url : String) : LinkType :=
  if isYouTubeLink url then .youtube
  else if isMegaLink url then .mega
  else .direct

inductive Controller where
  | youTubePlayer
  | megaPlayer
  | directVideoPlayer
deriving DecidableEq, Repr

/-- The `VideoPlayer` dispatcher (VideoPlayer.tsx 942-946): which of the three
controller components gets mounted for a link. -/
def dispatchPlayer (link : String) : Controller :=
  if isYouTubeLink link then .youTubePlayer
  else if isMegaLink link then .megaPlayer
  else .directVideoPlayer

/-- The controller that corresponds to each classification verdict. -/
def controllerFor : LinkType → Controller
  | .youtube => .youTubePlayer
  | .mega => .megaPlayer
  | .direct => .directVideoPlayer

/-! ## YouTube id extraction (types.ts 36-39, VideoPlayer.tsx 20-23)

The regex `(?:youtube\.com\/(?:watch\?v=|embed\/)|youtu\.be\/)([a-zA-Z0-9_-]{11})`
is embedded as a leftmost scan: at each position try the three literal
prefixes in the regex's alternation order, then demand exactly 11 id chars. -/

/-- The regex id character class `[a-zA-Z0-9_-]`. -/
def idChar (c : Char) : Bool := c.isAlphanum || c == '_' || c == '-'

/-- Take exactly `n` id characters, failing if fewer are available. -/
def takeId : Nat → List Char → Option (List Char)
  | 0, _ => some []
  | _ + 1, [] => none
  | n + 1, c :: cs => if idChar c then (takeId n cs).map (c :: ·) else none

def watchPat : List Char :=
  ['y', 'o', 'u', 't', 'u', 'b', 'e', '.', 'c', 'o', 'm', '/', 'w', 'a', 't', 'c', 'h', '?', 'v', '=']

def embedPat : List Char :=
  ['y', 'o', 'u', 't', 'u', 'b', 'e', '.', 'c', 'o', 'm', '/', 'e', 'm', 'b', 'e', 'd', '/']

def shortPat : List Char :=
  ['y', 'o', 'u', 't', 'u', '.', 'b', 'e', '/']

/-- Try a match anchored at the current position: one of the three URL-shape
prefixes followed by 11 id characters (the capture group). -/
def matchIdAt (s : List Char) : Option (List Char) :=
  if hasPfx s watchPat then takeId 11 (s.drop watchPat.length)
  else if hasPfx s embedPat then takeId 11 (s.drop embedPat.length)
  else if hasPfx s shortPat then takeId 11 (s.drop shortPat.length)
  else none

/-- Leftmost regex match: scan positions left to right. -/
def scanId : List Char → Option (List Char)
  | [] => none
  | c :: cs =>
    match matchIdAt (c :: cs) with
    | some r => some r
    | none => scanId cs

/-- Embedding of `getYouTubeVideoId` (types.ts 36-39): the captured 11-char id, or `""`. -/
def getYouTubeVideoId (url : String) : String :=
  match scanId url.data with
  | some l => String.mk l
  | none => ""

/-- Embedding of `getYTVideoId` (VideoPlayer.tsx 20-23): same regex, duplicated in the player file. -/
def getYTVideoId (url : String) : String :=
  match scanId url.data with
  | some l => String.mk l
  | none => ""

/-! ## Mega embed URL (types.ts 73-82) -/

inductive MegaMode where
  | video
  | audio
deriving DecidableEq

/-- Embedding of `getMegaEmbedUrl` (types.ts 73-82); the `mode` argument is accepted and
ignored, exactly as the `_mode` parameter is in the source. -/
def getMegaEmbedUrl (url : String) (_mode : MegaMode) : String :=
  if strIncludes url "mega.nz/embed/" then url
  else if strIncludes url "mega.nz/file/" then
    strReplFirst url "mega.nz/file/" "mega.nz/embed/"
  else url

/-! ## Native-player volume state (VideoPlayer.tsx 605-610/667-679, AudioPlayer.tsx 24-29/83-90)

The volume handlers are textually identical in `DirectVideoPlayer` and
`AudioPlayer`; one embedding covers both.  A JS number that is only stored,
compared with 0 and restored is modelled exactly by `ℚ`. -/

structure VolState where
  volume : ℚ
  prevVolume : ℚ
  muted : Bool
deriving DecidableEq, Repr

/-- State defaults from `useState`: `volume = 0.75`, `prevVolume = 0.75`, `muted = false`. -/
def initVolState : VolState := { volume := 3 / 4, prevVolume := 3 / 4, muted := false }

/-- Embedding of `handleVolumeChange` (VideoPlayer.tsx 667-670, AudioPlayer.tsx 83-85):
`setVolume(v); setMuted(v === 0); if (v > 0) setPrevVolume(v);`. -/
def handleVolumeChange (s : VolState) (v : ℚ) : VolState :=
  { s with
    volume := v
    muted := decide (v = 0)
    prevVolume := if 0 < v then v else s.prevVolume }

/-- Embedding of `toggleMute` (VideoPlayer.tsx 672-679, AudioPlayer.tsx 87-90). -/
def toggleMute (s : VolState) : VolState :=
  if s.muted || decide (s.volume = 0) then
    { s with volume := if 0 < s.prevVolume then s.prevVolume else 1 / 2, muted := false }
  else
    { s with prevVolume := s.volume, muted := true }

/-- The volume actually applied to the media element by the sync effect
(VideoPlayer.tsx 634-637, AudioPlayer.tsx 62-66): `muted ? 0 : volume`. -/
def effectiveVolume (s : VolState) : ℚ := if s.muted then 0 else s.volume

/-! ## Native-player seeking (VideoPlayer.tsx 651-657, AudioPlayer.tsx 75-81) -/

structure SeekState where
  currentTime : ℚ
  duration : ℚ
deriving DecidableEq, Repr

/-- Embedding of `handleProgressClick`: the JS guard `!v.duration` (duration `0` or `NaN`)
is modelled by `duration = 0` — an unknown duration is modelled as `0`.
Otherwise `currentTime := clamp((clientX - rect.left) / rect.width, 0, 1) * duration`. -/
def handleProgressClick (st : SeekState) (clientX rectLeft rectWidth : ℚ) : SeekState :=
  if st.duration = 0 then st
  else { st with currentTime := max 0 (min 1 ((clientX - rectLeft) / rectWidth)) * st.duration }

/-! ## Direct video player: load-item effect (VideoPlayer.tsx 605-631) -/

structure DirectPlayerState where
  playing : Bool
  currentTime : ℚ
  duration : ℚ
  volume : ℚ
  prevVolume : ℚ
  muted : Bool
  isFullscreen : Bool
  loading : Bool
  buffered : ℚ
  showSettings : Bool
  playbackRate : ℚ
  detectedQuality : String
  src : String
deriving DecidableEq, Repr

/-- The load-new-video effect (VideoPlayer.tsx 624-631), one record update per
state-setting statement, in source order:
`setLoading(true); setPlaying(false); setCurrentTime(0); setDuration(0);`
`setBuffered(0); setShowSettings(false); setDetectedQuality('');`
`video.pause(); video.src = item.link; video.load();` (the element-level
volume/mute/rate re-application touches the media element, not this state). -/
def loadItem (s : DirectPlayerState) (link : String) : DirectPlayerState :=
  let s := { s with loading := true }
  let s := { s with playing := false }
  let s := { s with currentTime := 0 }
  let s := { s with duration := 0 }
  let s := { s with buffered := 0 }
  let s := { s with showSettings := false }
  let s := { s with detectedQuality := "" }
  let s := { s with src := link }
  s

/-! ## Audio player: load-track effect and ended handler (AudioPlayer.tsx 24-34/47-59/92-95) -/

structure AudioState where
  playing : Bool
  currentTime : ℚ
  duration : ℚ
  volume : ℚ
  prevVolume : ℚ
  muted : Bool
  loading : Bool
  buffered : ℚ
  repeatOn : Bool
  speed : ℚ
  showSpeed : Bool
  src : String
deriving DecidableEq, Repr

/-- The load-new-track effect (AudioPlayer.tsx 47-59).  It starts with
`if (isMegaLink(item.link)) return;`, so a Mega link leaves the state alone;
otherwise the setters run in source order (`repeatOn` models the source's
`repeat` state, renamed because `repeat` is a Lean keyword). -/
def loadTrack (s : AudioState) (link : String) : AudioState :=
  if isMegaLink link then s
  else
    let s := { s with loading := true }
    let s := { s with playing := false }
    let s := { s with currentTime := 0 }
    let s := { s with duration := 0 }
    let s := { s with buffered := 0 }
    let s := { s with showSpeed := false }
    let s := { s with src := link }
    s

/-- The audio element fields `handleEnded` touches. -/
structure AudioElem where
  currentTime : ℚ
  paused : Bool
  src : String
deriving DecidableEq, Repr

/-- Embedding of `handleEnded` (AudioPlayer.tsx 92-95):
`if (repeat) { a.currentTime = 0; a.play(); } else onEnded();`.
Returns the updated element and whether the host `onEnded` callback fired. -/
def handleEnded (repeatOn : Bool) (a : AudioElem) : AudioElem × Bool :=
  if repeatOn then ({ a with currentTime := 0, paused := false }, false)
  else (a, true)

/-! ## YouTube embedded-player controller (VideoPlayer.tsx 181-318)

React state of `YouTubePlayer`, the `attempts` closure counter of the
polling loop, and the event callbacks, each guarded by the per-effect
`destroyed` liveness flag. -/

structure YTState where
  ready : Bool
  loading : Bool
  errorState : Bool
  currentQuality : String
  playingSuggestion : Bool
  suggestionTitle : String
deriving DecidableEq, Repr

/-- State defaults from `useState` (VideoPlayer.tsx 186-194). -/
def initYTState : YTState :=
  { ready := false, loading := true, errorState := false,
    currentQuality := "", playingSuggestion := false, suggestionTitle := "" }

/-- The state resets performed by `init()` before creating a fresh player
(VideoPlayer.tsx 221-226). -/
def initEffect (s : YTState) : YTState :=
  { s with ready := false, loading := true, errorState := false,
           currentQuality := "", playingSuggestion := false, suggestionTitle := "" }

/-- One invocation of the polling closure `check` (VideoPlayer.tsx 302-308):
input is the `attempts` counter and the component state; output is the new
counter/state plus `some delayMs` when another `setTimeout(check, 200)` was
scheduled. -/
def checkStep (ytAvail destroyed : Bool) : Nat × YTState → (Nat × YTState) × Option Nat :=
  fun c =>
    if destroyed then (c, none)
    else if ytAvail then ((c.1, initEffect c.2), none)
    else if c.1 + 1 < 50 then ((c.1 + 1, c.2), some 200)
    else ((c.1 + 1, { c.2 with loading := false }), none)

/-- Drive up to `n` pending invocations of `check` in the world where the
external `YT.Player` API never appears and the effect is still live; the run
stops as soon as no further call is scheduled. -/
def runPoll : Nat → (Nat × YTState) × Option Nat → (Nat × YTState) × Option Nat
  | 0, c => c
  | n + 1, (st, sched) =>
    match sched with
    | none => (st, none)
    | some _ => runPoll n (checkStep false false st)

/-- The configuration right before the effect's direct `check()` call:
fresh counter, fresh state, one call pending immediately (delay 0). -/
def initPoll : (Nat × YTState) × Option Nat := ((0, initYTState), some 0)

/-- Embedding of `onReady` (VideoPlayer.tsx 251-258). -/
def onReadyCb (destroyed : Bool) (s : YTState) : YTState :=
  if destroyed then s else { s with ready := true, loading := false }

/-- Fallback title `data?.title || 'YouTube Suggestion'` (JS `||` treats `""` as falsy). -/
def titleOr : Option String → String
  | some t => if t = "" then "YouTube Suggestion" else t
  | none => "YouTube Suggestion"

/-- Payload of an `onStateChange` event: for PLAYING, what the player's
best-effort query API reported (`getPlaybackQuality`, `getVideoUrl`,
`getVideoData().title`). -/
inductive YTEvent where
  | playing (reportedUrl : String) (reportedQuality : Option String) (reportedTitle : Option String)
  | buffering
  | ended
  | other
deriving DecidableEq, Repr

/-- Embedding of `onStateChange` (VideoPlayer.tsx 259-291): returns the new state and
whether the host `onEnded` callback fired.  In the PLAYING branch the
quality is stored only when truthy, and the currently playing id is compared
against the originally requested `expectedVideoId`. -/
def onStateChangeCb (destroyed : Bool) (expectedId : String) (ev : YTEvent) (s : YTState) :
    YTState × Bool :=
  if destroyed then (s, false)
  else
    match ev with
    | .playing url q t =>
      let s1 := { s with loading := false }
      let s2 := match q with
        | some qs => if qs = "" then s1 else { s1 with currentQuality := qs }
        | none => s1
      let nowId := getYTVideoId url
      let s3 :=
        if nowId ≠ "" ∧ nowId ≠ expectedId then
          { s2 with playingSuggestion := true, suggestionTitle := titleOr t }
        else
          { s2 with playingSuggestion := false, suggestionTitle := "" }
      (s3, false)
    | .buffering => ({ s with loading := true }, false)
    | .ended => (s, true)
    | .other => (s, false)

/-- Embedding of `onPlaybackQualityChange` (VideoPlayer.tsx 292-294): `e.data || ''`. -/
def onQualityChangeCb (destroyed : Bool) (q : Option String) (s : YTState) : YTState :=
  if destroyed then s
  else { s with currentQuality := match q with | some qs => if qs = "" then "" else qs | none => "" }

/-- Embedding of `onError` (VideoPlayer.tsx 295-297). -/
def onErrorCb (destroyed : Bool) (s : YTState) : YTState :=
  if destroyed then s else { s with loading := false, errorState := true }

/-- A late asynchronous callback belonging to a torn-down controller
instance, with its payload. -/
inductive LateCb where
  | ready
  | stateChange (expectedId : String) (ev : YTEvent)
  | qualityChange (q : Option String)
  | errorEv
  | pollTick (ytAvail : Bool) (attempts : Nat)
deriving Repr

/-- Apply a callback under a given liveness flag, projecting out the
component state it leaves behind. -/
def applyCb (destroyed : Bool) (s : YTState) : LateCb → YTState
  | .ready => onReadyCb destroyed s
  | .stateChange e ev => (onStateChangeCb destroyed e ev s).1
  | .qualityChange q => onQualityChangeCb destroyed q s
  | .errorEv => onErrorCb destroyed s
  | .pollTick yt a => ((checkStep yt destroyed (a, s)).1).2

/-! ## Helper lemmas about the string primitives -/

theorem hasPfx_append (p t : List Char) : hasPfx (p ++ t) p = true := by
  induction p with
  | nil => cases t <;> simp [hasPfx]
  | cons a as ih => simp [hasPfx, ih]

theorem hasPfx_self (p : List Char) : hasPfx p p = true := by
  have h := hasPfx_append p []
  simpa using h

theorem hasPfx_nil_iff (p : List Char) : hasPfx [] p = true ↔ p = [] := by
  cases p <;> simp [hasPfx]

theorem hasPfx_iff (s p : List Char) : hasPfx s p = true ↔ ∃ t, s = p ++ t := by
  induction p generalizing s with
  | nil => cases s <;> simp [hasPfx]
  | cons b bs ih =>
    cases s with
    | nil => simp [hasPfx]
    | cons a as =>
      simp only [hasPfx, Bool.and_eq_true, beq_iff_eq, ih, List.cons_append,
        List.cons.injEq]
      constructor
      · rintro ⟨rfl, t, rfl⟩; exact ⟨t, rfl, rfl⟩
      · rintro ⟨t, rfl, rfl⟩; exact ⟨rfl, t, rfl⟩

theorem containsSub_of_hasPfx {s p : List Char} (h : hasPfx s p = true) :
    containsSub s p = true := by
  cases s with
  | nil => simpa [containsSub] using h
  | cons c cs => simp [containsSub, h]

theorem containsSub_cons {cs p : List Char} (c : Char) (h : containsSub cs p = true) :
    containsSub (c :: cs) p = true := by
  simp [containsSub, h]

theorem containsSub_replFirst {pat s : List Char} (rep : List Char)
    (h : containsSub s pat = true) :
    containsSub (replFirst pat rep s) rep = true := by
  induction s with
  | nil =>
    have hp : pat = [] := by
      simpa [containsSub, hasPfx_nil_iff] using h
    subst hp
    simp [replFirst, hasPfx, containsSub_of_hasPfx (hasPfx_self rep)]
  | cons c cs ih =>
    by_cases hc : hasPfx (c :: cs) pat = true
    · simp only [replFirst, hc, if_true]
      exact containsSub_of_hasPfx (hasPfx_append rep _)
    · have hcs : containsSub cs pat = true := by
        rcases (Bool.or_eq_true _ _).mp (by simpa [containsSub] using h) with h1 | h2
        · exact absurd h1 hc
        · exact h2
      simp only [replFirst, hc, if_false]
      exact containsSub_cons c (ih hcs)

/-! ## Claims -/

/-- C1: classification assigns exactly one of the three source kinds to every
link — `youtube` whenever the YouTube host pattern matches (checked first, so
a link matching both patterns routes to the scripted-embed controller),
`mega` when only the Mega pattern matches, `direct` as the fallback when
neither matches — and the `VideoPlayer` dispatcher mounts exactly the
controller matching that verdict.  Classification is a pure function of the
link string, hence deterministic and side-effect-free. -/
theorem C1_classify_and_dispatch (link : String) :
    dispatchPlayer link = controllerFor (getLinkType link)
    ∧ (isYouTubeLink link = true → getLinkType link = LinkType.youtube)
    ∧ (isYouTubeLink link = false → isMegaLink link = true →
        getLinkType link = LinkType.mega)
    ∧ (isYouTubeLink link = false → isMegaLink link = false →
        getLinkType link = LinkType.direct) := by
  cases hyt : isYouTubeLink link <;> cases hm : isMegaLink link <;>
    simp [dispatchPlayer, getLinkType, controllerFor, hyt, hm]

/-- Witness for C1 at a link matching both host patterns (case-insensitively):
it is classified as the scripted (YouTube) kind. -/
theorem C1_classify_and_dispatch_witness :
    isYouTubeLink "https://YouTube.com/watch?v=abc at MEGA.nz" = true
    ∧ getLinkType "https://YouTube.com/watch?v=abc at MEGA.nz" = LinkType.youtube :=
  ⟨by decide, (C1_classify_and_dispatch "https://YouTube.com/watch?v=abc at MEGA.nz").2.1
    (by decide)⟩

/-- C3: `getMegaEmbedUrl` is idempotent — applying it twice (with any modes)
equals applying it once; a link already in the embeddable form is returned
unchanged, and a link matching neither the embed nor the file-view shape
passes through unchanged. -/
theorem C3_getMegaEmbedUrl_idempotent (url : String) (m m' : MegaMode) :
    getMegaEmbedUrl (getMegaEmbedUrl url m) m' = getMegaEmbedUrl url m
    ∧ (strIncludes url "mega.nz/embed/" = true → getMegaEmbedUrl url m = url)
    ∧ (strIncludes url "mega.nz/embed/" = false → strIncludes url "mega.nz/file/" = false →
        getMegaEmbedUrl url m = url) := by
  refine ⟨?_, ?_, ?_⟩
  · by_cases h1 : strIncludes url "mega.nz/embed/" = true
    · simp [getMegaEmbedUrl, h1]
    · by_cases h2 : strIncludes url "mega.nz/file/" = true
      · have hrep : strIncludes (strReplFirst url "mega.nz/file/" "mega.nz/embed/")
            "mega.nz/embed/" = true := by
          have := @containsSub_replFirst ("mega.nz/file/" : String).data url.data
            ("mega.nz/embed/" : String).data (by simpa [strIncludes] using h2)
          simpa [strIncludes, strReplFirst] using this
        simp [getMegaEmbedUrl, h1, h2, hrep]
      · simp [getMegaEmbedUrl, h1, h2]
  · intro h1; simp [getMegaEmbedUrl, h1]
  · intro h1 h2; simp [getMegaEmbedUrl, h1, h2]

/-- Witness for C3: a link already in embeddable form is returned unchanged
(and hence a second application changes nothing). -/
theorem C3_getMegaEmbedUrl_idempotent_witness :
    getMegaEmbedUrl "https://mega.nz/embed/AB12#KEY" MegaMode.video
      = "https://mega.nz/embed/AB12#KEY" :=
  (C3_getMegaEmbedUrl_idempotent "https://mega.nz/embed/AB12#KEY"
    MegaMode.video MegaMode.video).2.1 (by decide)

/-- C4: volume/mute round-trip in the native players — from any state,
setting the volume to 0.7 via the volume-change handler, then toggling mute,
then toggling mute again restores the volume to exactly 0.7 (the recorded
value, not a default), leaves the player unmuted, and the effective output
volume is again exactly 0.7. -/
theorem C4_volume_mute_roundtrip (s : VolState) :
    (toggleMute (toggleMute (handleVolumeChange s (7 / 10)))).volume = 7 / 10
    ∧ (toggleMute (toggleMute (handleVolumeChange s (7 / 10)))).muted = false
    ∧ effectiveVolume (toggleMute (toggleMute (handleVolumeChange s (7 / 10)))) = 7 / 10 := by
  norm_num [handleVolumeChange, toggleMute, effectiveVolume]

/-- C5: setting the volume control directly to 0 makes the effective output
volume 0, and toggling mute from that state — when no prior non-zero volume
is recorded (`prevVolume` not positive) — restores the documented default
0.5 and unmutes. -/
theorem C5_zero_volume_default_restore (s : VolState) (h : ¬ 0 < s.prevVolume) :
    effectiveVolume (handleVolumeChange s 0) = 0
    ∧ (handleVolumeChange s 0).volume = 0
    ∧ (toggleMute (handleVolumeChange s 0)).volume = 1 / 2
    ∧ (toggleMute (handleVolumeChange s 0)).muted = false := by
  norm_num [handleVolumeChange, toggleMute, effectiveVolume, h]

/-- Witness for C5 at the concrete state `⟨volume 1, prevVolume 0, unmuted⟩`. -/
theorem C5_zero_volume_default_restore_witness :
    effectiveVolume (handleVolumeChange (VolState.mk 1 0 false) 0) = 0
    ∧ (toggleMute (handleVolumeChange (VolState.mk 1 0 false) 0)).volume = 1 / 2 :=
  ⟨(C5_zero_volume_default_restore (VolState.mk 1 0 false) (by norm_num)).1,
   (C5_zero_volume_default_restore (VolState.mk 1 0 false) (by norm_num)).2.2.1⟩

/-- C6: native-player seeking — with a known non-zero duration `D`, a click at
horizontal offset `x` on a progress surface spanning `[l, l + w]` sets the
elapsed time to `clamp((x - l) / w, 0, 1) * D`: linearly inside the surface,
clamped to `0` left of it and to `D` right of it; with duration `0`/unknown
the click is a no-op leaving the state unchanged. -/
theorem C6_progress_click (st : SeekState) (x l w : ℚ) :
    (st.duration = 0 → handleProgressClick st x l w = st)
    ∧ (st.duration ≠ 0 → 0 < w →
        ((l ≤ x → x ≤ l + w →
            (handleProgressClick st x l w).currentTime = (x - l) / w * st.duration)
         ∧ (x ≤ l → (handleProgressClick st x l w).currentTime = 0)
         ∧ (l + w ≤ x → (handleProgressClick st x l w).currentTime = st.duration))) := by
  constructor
  · intro h; simp [handleProgressClick, h]
  · intro hd hw
    refine ⟨?_, ?_, ?_⟩
    · intro h1 h2
      have hf0 : 0 ≤ (x - l) / w := div_nonneg (by linarith) hw.le
      have hf1 : (x - l) / w ≤ 1 := (div_le_one hw).mpr (by linarith)
      simp [handleProgressClick, hd, min_eq_right hf1, max_eq_right hf0]
    · intro h1
      have hf : (x - l) / w ≤ 0 := div_nonpos_iff.mpr (Or.inr ⟨by linarith, hw.le⟩)
      simp [handleProgressClick, hd, min_eq_right (le_trans hf zero_le_one),
        max_eq_left hf]
    · intro h1
      have hf : 1 ≤ (x - l) / w := (one_le_div hw).mpr (by linarith)
      simp [handleProgressClick, hd, min_eq_left hf]

/-- Witness for C6: the midpoint of a 100-second item seeks to 50 seconds. -/
theorem C6_progress_click_witness :
    (handleProgressClick (SeekState.mk 0 100) (1 / 2) 0 1).currentTime = 50 := by
  have h := ((C6_progress_click (SeekState.mk 0 100) (1 / 2) 0 1).2
    (by norm_num) (by norm_num)).1 (by norm_num) (by norm_num)
  rw [h]; norm_num

/-- A concrete direct-player state that is in fullscreen mid-playback. -/
def fsPlayerState : DirectPlayerState :=
  { playing := true, currentTime := 33, duration := 120, volume := 3 / 5,
    prevVolume := 3 / 5, muted := false, isFullscreen := true, loading := false,
    buffered := 1 / 2, showSettings := false, playbackRate := 1,
    detectedQuality := "1080p", src := "https://host/a.mp4" }

/-- C7 counterexample: the claim says volume, mute flag, remembered volume and
playback rate are the ONLY state preserved across item changes, all other
playback-session state returning to its defaults.  But the fullscreen flag —
listed by the spec as part of the playback session, with default `false` — is
not touched by the load-item effect: from a fullscreen state, loading a new
item leaves `isFullscreen = true` instead of its default `false`. -/
theorem C7_counterexample :
    fsPlayerState.isFullscreen = true
    ∧ (loadItem fsPlayerState "https://host/b.mp4").isFullscreen = true :=
  ⟨rfl, rfl⟩

/-- A concrete audio-player state with the repeat toggle on. -/
def repeatAudioState : AudioState :=
  { playing := true, currentTime := 10, duration := 60, volume := 3 / 4,
    prevVolume := 3 / 4, muted := false, loading := false, buffered := 1 / 4,
    repeatOn := true, speed := 1, showSpeed := false, src := "https://host/a.mp3" }

/-- C7 (amended): changing the current item's identity resets elapsed time,
duration, buffered fraction and the detected quality label to their defaults
and stops playback, while volume, mute flag, remembered last non-zero volume
and playback rate are left unchanged; in addition the fullscreen flag (video
player) and the repeat toggle (audio player) persist across item changes
rather than being reset.  The audio reset runs only for non-Mega links (the
effect returns early on Mega links). -/
theorem C7_load_item_reset (s : DirectPlayerState) (a : AudioState) (link : String) :
    (isMegaLink link = false →
      (loadTrack a link).currentTime = 0
      ∧ (loadTrack a link).duration = 0
      ∧ (loadTrack a link).buffered = 0
      ∧ (loadTrack a link).playing = false
      ∧ (loadTrack a link).loading = true
      ∧ (loadTrack a link).src = link
      ∧ (loadTrack a link).volume = a.volume
      ∧ (loadTrack a link).muted = a.muted
      ∧ (loadTrack a link).prevVolume = a.prevVolume
      ∧ (loadTrack a link).speed = a.speed
      ∧ (loadTrack a link).repeatOn = a.repeatOn)
    ∧ (loadItem s link).currentTime = 0
    ∧ (loadItem s link).duration = 0
    ∧ (loadItem s link).buffered = 0
    ∧ (loadItem s link).detectedQuality = ""
    ∧ (loadItem s link).playing = false
    ∧ (loadItem s link).loading = true
    ∧ (loadItem s link).showSettings = false
    ∧ (loadItem s link).src = link
    ∧ (loadItem s link).volume = s.volume
    ∧ (loadItem s link).muted = s.muted
    ∧ (loadItem s link).prevVolume = s.prevVolume
    ∧ (loadItem s link).playbackRate = s.playbackRate
    ∧ (loadItem s link).isFullscreen = s.isFullscreen := by
  refine ⟨?_, rfl, rfl, rfl, rfl, rfl, rfl, rfl, rfl, rfl, rfl, rfl, rfl, rfl⟩
  intro h
  simp [loadTrack, h]

/-- Witness for C7 (amended) at a concrete non-Mega link: the audio reset
fires and keeps the repeat toggle on. -/
theorem C7_load_item_reset_witness :
    isMegaLink "https://host/song.mp3" = false
    ∧ (loadTrack repeatAudioState "https://host/song.mp3").currentTime = 0
    ∧ (loadTrack repeatAudioState "https://host/song.mp3").repeatOn
        = repeatAudioState.repeatOn :=
  ⟨by decide,
   ((C7_load_item_reset fsPlayerState repeatAudioState "https://host/song.mp3").1
      (by decide)).1,
   (((C7_load_item_reset fsPlayerState repeatAudioState
      "https://host/song.mp3").1 (by decide)).2.2.2.2.2.2.2.2.2.2)⟩

/-- C9: once a scripted-embed controller instance is torn down
(`destroyed = true`), every late asynchronous callback belonging to it —
`onReady`, `onStateChange` (with any payload, firing no host `onEnded`),
`onPlaybackQualityChange`, `onError`, or a pending poll tick (which also
schedules no further tick) — leaves the component state unchanged, and hence
any sequence of late callbacks from the torn-down instance leaves the newly
selected item's state untouched. -/
theorem C9_late_callbacks_ignored (s : YTState) (e : String) (ev : YTEvent)
    (q : Option String) (a : Nat) (yt : Bool) (cbs : List LateCb) :
    onReadyCb true s = s
    ∧ onStateChangeCb true e ev s = (s, false)
    ∧ onQualityChangeCb true q s = s
    ∧ onErrorCb true s = s
    ∧ checkStep yt true (a, s) = ((a, s), none)
    ∧ cbs.foldl (applyCb true) s = s := by
  refine ⟨rfl, rfl, rfl, rfl, rfl, ?_⟩
  induction cbs with
  | nil => rfl
  | cons cb rest ih =>
    have hcb : applyCb true s cb = s := by cases cb <;> rfl
    simpa [List.foldl_cons, hcb] using ih

/-- C10: in the audio player, when repeat is on the ended event does not
invoke the host `onEnded`, resets elapsed time to 0 and re-initiates playback
on the same source; when repeat is off it invokes `onEnded` and leaves the
element unchanged. -/
theorem C10_repeat_ended (a : AudioElem) :
    (handleEnded true a).2 = false
    ∧ (handleEnded true a).1.currentTime = 0
    ∧ (handleEnded true a).1.paused = false
    ∧ (handleEnded true a).1.src = a.src
    ∧ (handleEnded false a).2 = true
    ∧ (handleEnded false a).1 = a :=
  ⟨rfl, rfl, rfl, rfl, rfl, rfl⟩

/-- Once no further `check` call is scheduled, nothing more happens. -/
theorem runPoll_stopped (n : Nat) (st : Nat × YTState) :
    runPoll n (st, none) = (st, none) := by
  cases n <;> rfl

/-- Characterisation of the polling loop from an intermediate configuration:
with `a < 50` attempts already made, the counter keeps climbing with a 200 ms
timer pending until the 50th attempt, which clears the loading flag and
schedules nothing. -/
theorem runPoll_mid (n : Nat) (a d : Nat) (s : YTState) (ha : a < 50) :
    runPoll n ((a, s), some d)
      = if a + n < 50 then ((a + n, s), some (if n = 0 then d else 200))
        else ((50, { s with loading := false }), none) := by
  induction n generalizing a d with
  | zero =>
    have h0 : a + 0 < 50 := by omega
    simp [runPoll, h0, ha]
  | succ n ih =>
    have hstep : runPoll (n + 1) ((a, s), some d)
        = runPoll n (checkStep false false (a, s)) := rfl
    by_cases h : a + 1 < 50
    · have hc : checkStep false false (a, s) = ((a + 1, s), some 200) := by
        simp [checkStep, h]
      rw [hstep, hc, ih (a + 1) 200 h]
      by_cases h2 : a + (n + 1) < 50
      · rw [if_pos (by omega), if_pos h2]
        have he : a + 1 + n = a + (n + 1) := by omega
        simp [he]
      · rw [if_neg (by omega), if_neg h2]
    · have hc : checkStep false false (a, s)
          = ((50, { s with loading := false }), none) := by
        have ha1 : a + 1 = 50 := by omega
        simp [checkStep, h, ha1]
      rw [hstep, hc, runPoll_stopped, if_neg (by omega)]

/-- C8: if the external YouTube player API never becomes available, the
polling loop makes at most 50 attempts — after any `n + 1` pending calls the
counter reads `min (n + 1) 50` with a 200 ms retry pending exactly while it is
below 50 — and from 50 calls onwards it stops for good: the counter stays at
50, the loading flag is cleared, the error flag stays `false`, and nothing
further is scheduled.  That terminal state differs from the explicit-error
state produced only by the live `onError` callback, which sets the error
flag. -/
theorem C8_polling_gives_up (n : Nat) (s' : YTState) :
    (runPoll (n + 1) initPoll
      = if n + 1 < 50 then ((n + 1, initYTState), some 200)
        else ((50, { initYTState with loading := false }), none))
    ∧ runPoll (50 + n) initPoll = ((50, { initYTState with loading := false }), none)
    ∧ ({ initYTState with loading := false }).loading = false
    ∧ ({ initYTState with loading := false }).errorState = false
    ∧ (onErrorCb false s').loading = false
    ∧ (onErrorCb false s').errorState = true := by
  have key : ∀ m : Nat, runPoll (m + 1) initPoll
      = if m + 1 < 50 then ((m + 1, initYTState), some 200)
        else ((50, { initYTState with loading := false }), none) := by
    intro m
    have hstep : runPoll (m + 1) initPoll
        = runPoll m ((1, initYTState), some 200) := rfl
    rw [hstep, runPoll_mid m 1 200 initYTState (by omega)]
    by_cases h2 : m + 1 < 50
    · rw [if_pos (by omega), if_pos h2]
      have he : 1 + m = m + 1 := by omega
      simp [he]
    · rw [if_neg (by omega), if_neg h2]
  refine ⟨key n, ?_, rfl, rfl, rfl, rfl⟩
  have h50 : 50 + n = (49 + n) + 1 := by omega
  rw [h50, key (49 + n), if_neg (by omega)]

/-! ## Lemmas about the id scanner -/

theorem takeId_self (l : List Char) (h : l.all idChar = true) :
    takeId l.length l = some l := by
  induction l with
  | nil => rfl
  | cons c cs ih =>
    simp only [List.all_cons, Bool.and_eq_true] at h
    simp [takeId, h.1, ih h.2]

theorem takeId_some {n : Nat} {t l : List Char} (h : takeId n t = some l) :
    l.length = n ∧ l.all idChar = true ∧ ∃ suf, t = l ++ suf := by
  induction n generalizing t l with
  | zero =>
    simp only [takeId, Option.some.injEq] at h
    subst h
    exact ⟨rfl, rfl, t, rfl⟩
  | succ n ih =>
    cases t with
    | nil => exact absurd h (by simp [takeId])
    | cons c cs =>
      by_cases hc : idChar c = true
      · rw [takeId, if_pos hc] at h
        rcases Option.map_eq_some'.mp h with ⟨l', hl', heq⟩
        obtain ⟨hlen, hall, suf, hsuf⟩ := ih hl'
        subst heq
        exact ⟨by simp [hlen], by simp [List.all_cons, hc, hall], suf, by simp [hsuf]⟩
      · rw [takeId, if_neg hc] at h
        exact absurd h (by simp)

/-- If the anchored match succeeds, the position really starts with one of the
three shapes followed by the captured 11-character id. -/
theorem matchIdAt_some {s l : List Char} (h : matchIdAt s = some l) :
    l.length = 11 ∧ l.all idChar = true
    ∧ ∃ suf, s = watchPat ++ l ++ suf ∨ s = embedPat ++ l ++ suf
        ∨ s = shortPat ++ l ++ suf := by
  unfold matchIdAt at h
  by_cases h1 : hasPfx s watchPat = true
  · rw [if_pos h1] at h
    rcases (hasPfx_iff s watchPat).mp h1 with ⟨t, rfl⟩
    rw [List.drop_left] at h
    obtain ⟨hlen, hall, suf, rfl⟩ := takeId_some h
    exact ⟨hlen, hall, suf, Or.inl (by simp)⟩
  · rw [if_neg h1] at h
    by_cases h2 : hasPfx s embedPat = true
    · rw [if_pos h2] at h
      rcases (hasPfx_iff s embedPat).mp h2 with ⟨t, rfl⟩
      rw [List.drop_left] at h
      obtain ⟨hlen, hall, suf, rfl⟩ := takeId_some h
      exact ⟨hlen, hall, suf, Or.inr (Or.inl (by simp))⟩
    · rw [if_neg h2] at h
      by_cases h3 : hasPfx s shortPat = true
      · rw [if_pos h3] at h
        rcases (hasPfx_iff s shortPat).mp h3 with ⟨t, rfl⟩
        rw [List.drop_left] at h
        obtain ⟨hlen, hall, suf, rfl⟩ := takeId_some h
        exact ⟨hlen, hall, suf, Or.inr (Or.inr (by simp))⟩
      · rw [if_neg h3] at h
        exact absurd h (by simp)

/-- If the scan finds an id, the URL contains one of the three shapes
immediately followed by that 11-character id. -/
theorem scanId_some {s l : List Char} (h : scanId s = some l) :
    l.length = 11 ∧ l.all idChar = true
    ∧ ∃ pre suf, s = pre ++ watchPat ++ l ++ suf ∨ s = pre ++ embedPat ++ l ++ suf
        ∨ s = pre ++ shortPat ++ l ++ suf := by
  induction s with
  | nil => exact absurd h (by simp [scanId])
  | cons c cs ih =>
    rw [scanId] at h
    cases hm : matchIdAt (c :: cs) with
    | some r =>
      rw [hm] at h
      simp only [Option.some.injEq] at h
      subst h
      obtain ⟨hlen, hall, suf, hcase⟩ := matchIdAt_some hm
      exact ⟨hlen, hall, [], suf, by
        rcases hcase with hc | hc | hc <;> simp [hc]⟩
    | none =>
      rw [hm] at h
      obtain ⟨hlen, hall, pre, suf, hcase⟩ := ih h
      exact ⟨hlen, hall, c :: pre, suf, by
        rcases hcase with hc | hc | hc <;> simp [hc]⟩

theorem scanId_of_matchIdAt {s l : List Char} (hne : s ≠ []) (h : matchIdAt s = some l) :
    scanId s = some l := by
  cases s with
  | nil => exact absurd rfl hne
  | cons c cs => simp [scanId, h]

theorem takeId_append (l t : List Char) (h : l.all idChar = true) :
    takeId l.length (l ++ t) = some l := by
  induction l with
  | nil => rfl
  | cons c cs ih =>
    simp only [List.all_cons, Bool.and_eq_true] at h
    simp [takeId, h.1, ih h.2]

theorem hasPfx_take_of_append {p x q : List Char} (h : hasPfx (p ++ x) q = true) :
    hasPfx p (q.take p.length) = true := by
  induction p generalizing q with
  | nil => simp [hasPfx, List.take]
  | cons a as ih =>
    cases q with
    | nil => simp [hasPfx]
    | cons b bs =>
      simp only [List.cons_append, hasPfx, Bool.and_eq_true] at h
      simp only [List.length_cons, List.take_succ_cons, hasPfx, Bool.and_eq_true]
      exact ⟨h.1, ih h.2⟩

/-- An embed-shaped position never matches the watch pattern (they diverge at
index 12). -/
theorem not_watch_of_embed (x : List Char) : hasPfx (embedPat ++ x) watchPat = false := by
  cases hval : hasPfx (embedPat ++ x) watchPat with
  | false => rfl
  | true => exact absurd (hasPfx_take_of_append hval) (by decide)

/-- A short-link position never matches the watch pattern (divergence at
index 5). -/
theorem not_watch_of_short (x : List Char) : hasPfx (shortPat ++ x) watchPat = false := by
  cases hval : hasPfx (shortPat ++ x) watchPat with
  | false => rfl
  | true => exact absurd (hasPfx_take_of_append hval) (by decide)

/-- A short-link position never matches the embed pattern (divergence at
index 5). -/
theorem not_embed_of_short (x : List Char) : hasPfx (shortPat ++ x) embedPat = false := by
  cases hval : hasPfx (shortPat ++ x) embedPat with
  | false => rfl
  | true => exact absurd (hasPfx_take_of_append hval) (by decide)

theorem matchIdAt_watch (vid : List Char) (h11 : vid.length = 11)
    (hall : vid.all idChar = true) : matchIdAt (watchPat ++ vid) = some vid := by
  unfold matchIdAt
  rw [if_pos (hasPfx_append watchPat vid), List.drop_left, ← h11]
  exact takeId_self vid hall

theorem matchIdAt_embed (vid : List Char) (h11 : vid.length = 11)
    (hall : vid.all idChar = true) : matchIdAt (embedPat ++ vid) = some vid := by
  unfold matchIdAt
  rw [not_watch_of_embed]
  simp only [Bool.false_eq_true, if_false]
  rw [if_pos (hasPfx_append embedPat vid), List.drop_left, ← h11]
  exact takeId_self vid hall

theorem matchIdAt_short (vid : List Char) (h11 : vid.length = 11)
    (hall : vid.all idChar = true) : matchIdAt (shortPat ++ vid) = some vid := by
  unfold matchIdAt
  rw [not_watch_of_short, not_embed_of_short]
  simp only [Bool.false_eq_true, if_false]
  rw [if_pos (hasPfx_append shortPat vid), List.drop_left, ← h11]
  exact takeId_self vid hall

/-- Spec-side characterisation of "URL matching one of the accepted
scripted-embed shapes": it contains one of the three host patterns
immediately followed by an 11-character identifier.  Stated independently of
the scanner, for comparison with `getYouTubeVideoId`. -/
def specYTShape (url : String) : Prop :=
  ∃ pre vid suf : List Char, vid.length = 11 ∧ vid.all idChar = true
    ∧ (url.data = pre ++ watchPat ++ vid ++ suf
       ∨ url.data = pre ++ embedPat ++ vid ++ suf
       ∨ url.data = pre ++ shortPat ++ vid ++ suf)

theorem getYouTubeVideoId_of_scan {url : String} {l : List Char}
    (h : scanId url.data = some l) : getYouTubeVideoId url = String.mk l := by
  unfold getYouTubeVideoId
  rw [h]

/-- C2: for every URL in any of the three accepted scripted-embed shapes
carrying an 11-character identifier, both `getYouTubeVideoId` and its
duplicate `getYTVideoId` return exactly that (non-empty) identifier; and any
URL on which the extractor returns a non-empty result does match one of the
accepted shapes — equivalently, a URL matching none of the shapes yields the
empty string. -/
theorem C2_id_extraction (vid : String) (h11 : vid.data.length = 11)
    (hall : vid.data.all idChar = true) (u : String)
    (hu : getYouTubeVideoId u ≠ "") :
    getYouTubeVideoId ("youtube.com/watch?v=" ++ vid) = vid
    ∧ getYouTubeVideoId ("youtube.com/embed/" ++ vid) = vid
    ∧ getYouTubeVideoId ("youtu.be/" ++ vid) = vid
    ∧ vid ≠ ""
    ∧ (∀ w : String, getYTVideoId w = getYouTubeVideoId w)
    ∧ specYTShape u := by
  refine ⟨?_, ?_, ?_, ?_, fun w => rfl, ?_⟩
  · have hs : scanId ("youtube.com/watch?v=" ++ vid).data = some vid.data := by
      rw [show ("youtube.com/watch?v=" ++ vid).data = watchPat ++ vid.data from by
        rw [String.data_append]
        rfl]
      exact scanId_of_matchIdAt (by simp [watchPat]) (matchIdAt_watch _ h11 hall)
    rw [getYouTubeVideoId_of_scan hs]
  · have hs : scanId ("youtube.com/embed/" ++ vid).data = some vid.data := by
      rw [show ("youtube.com/embed/" ++ vid).data = embedPat ++ vid.data from by
        rw [String.data_append]
        rfl]
      exact scanId_of_matchIdAt (by simp [embedPat]) (matchIdAt_embed _ h11 hall)
    rw [getYouTubeVideoId_of_scan hs]
  · have hs : scanId ("youtu.be/" ++ vid).data = some vid.data := by
      rw [show ("youtu.be/" ++ vid).data = shortPat ++ vid.data from by
        rw [String.data_append]
        rfl]
      exact scanId_of_matchIdAt (by simp [shortPat]) (matchIdAt_short _ h11 hall)
    rw [getYouTubeVideoId_of_scan hs]
  · intro h
    subst h
    exact absurd h11 (by decide)
  · cases hscan : scanId u.data with
    | none =>
      have : getYouTubeVideoId u = "" := by unfold getYouTubeVideoId; rw [hscan]
      exact absurd this hu
    | some l =>
      obtain ⟨hlen, hall', pre, suf, hc⟩ := scanId_some hscan
      exact ⟨pre, l, suf, hlen, hall', hc⟩

/-- Witness for C2 at the identifier `dQw4w9WgXcQ` and the short-form URL
`https://youtu.be/dQw4w9WgXcQ`. -/
theorem C2_id_extraction_witness :
    ("dQw4w9WgXcQ" : String).data.length = 11
    ∧ getYouTubeVideoId "https://youtu.be/dQw4w9WgXcQ" ≠ ""
    ∧ getYouTubeVideoId ("youtube.com/watch?v=" ++ "dQw4w9WgXcQ") = "dQw4w9WgXcQ"
    ∧ specYTShape "https://youtu.be/dQw4w9WgXcQ" :=
  ⟨by decide, by decide,
   (C2_id_extraction "dQw4w9WgXcQ" (by decide) (by decide)
      "https://youtu.be/dQw4w9WgXcQ" (by decide)).1,
   (C2_id_extraction "dQw4w9WgXcQ" (by decide) (by decide)
      "https://youtu.be/dQw4w9WgXcQ" (by decide)).2.2.2.2.2⟩
